import Mathlib

/-!
Verification development for the call-rating dashboard (src/src/App.jsx).

The JavaScript state and handlers are shallowly embedded as pure Lean
functions.  JS objects used as string- or index-keyed maps are embedded as
association lists with replace-in-place-or-append update, which models the
spread update pattern used throughout the source
(the value for an existing key is replaced at its position, a new key is
appended).  JS truthiness coercions on numbers and strings are embedded by
the explicit helpers jsOrZero and jsOrEmpty.  Loosely-typed remote columns
are embedded as Option values: some n models a column whose JS value has
the expected typeof, none models null, absence, or a wrong type.
-/

/-- JS expression v || 0 on a number v: 0 and NaN are falsy, every other
number is truthy.  On the Int embedding this is the identity. -/
def jsOrZero (v : Int) : Int :=
  if v = 0 then 0 else v

/-- JS expression s || "" on a string s: only "" is falsy, so this is the
identity on strings. -/
def jsOrEmpty (s : String) : String :=
  if s = "" then "" else s

theorem jsOrZero_eq (v : Int) : jsOrZero v = v := by
  by_cases h : v = 0 <;> simp [jsOrZero, h]

theorem jsOrEmpty_eq (s : String) : jsOrEmpty s = s := by
  by_cases h : s = "" <;> simp [jsOrEmpty, h]

/-- Lookup in an association list, modelling property access obj[k] on a JS
object used as a map. -/
def lookupAssoc {α β : Type} [DecidableEq α] : List (α × β) → α → Option β
  | [], _ => none
  | (k, v) :: t, k2 => if k = k2 then some v else lookupAssoc t k2

/-- Update of an association list, modelling the JS spread update pattern
on an object used as a map: an existing key keeps
its position and gets the new value, a new key is appended. -/
def updateAssoc {α β : Type} [DecidableEq α] : List (α × β) → α → β → List (α × β)
  | [], k2, v2 => [(k2, v2)]
  | (k, v) :: t, k2, v2 =>
      if k = k2 then (k, v2) :: t else (k, v) :: updateAssoc t k2 v2

theorem lookupAssoc_updateAssoc_self {α β : Type} [DecidableEq α]
    (l : List (α × β)) (k : α) (v : β) :
    lookupAssoc (updateAssoc l k v) k = some v := by
  induction l with
  | nil => simp [lookupAssoc, updateAssoc]
  | cons hd tl ih =>
      obtain ⟨k1, v1⟩ := hd
      by_cases h : k1 = k <;> simp [lookupAssoc, updateAssoc, h, ih]

theorem lookupAssoc_updateAssoc_ne {α β : Type} [DecidableEq α]
    (l : List (α × β)) (k k2 : α) (v : β) (h : k2 ≠ k) :
    lookupAssoc (updateAssoc l k v) k2 = lookupAssoc l k2 := by
  have hne : ¬k = k2 := fun e => h e.symm
  induction l with
  | nil =>
      simp only [updateAssoc, lookupAssoc]
      rw [if_neg hne]
  | cons hd tl ih =>
      obtain ⟨k1, v1⟩ := hd
      simp only [updateAssoc]
      by_cases h1 : k1 = k
      · rw [if_pos h1]
        subst h1
        simp only [lookupAssoc]
        rw [if_neg hne, if_neg hne]
      · rw [if_neg h1]
        simp only [lookupAssoc]
        by_cases h2 : k1 = k2
        · rw [if_pos h2, if_pos h2]
        · rw [if_neg h2, if_neg h2]
          exact ih

/-- One turn's judgment record, from EMPTY_RATING in App.jsx: four metric
fields plus the ideal-response text. -/
structure Rating where
  codeSwitch : Int
  colloquialness : Int
  emotionalIntelligence : Int
  sopAdherence : Int
  idealResponse : String
deriving DecidableEq

/-- EMPTY_RATING from App.jsx. -/
def EMPTY_RATING : Rating :=
  { codeSwitch := 0
    colloquialness := 0
    emotionalIntelligence := 0
    sopAdherence := 0
    idealResponse := "" }

/-- The four metric keys of METRICS in App.jsx. -/
inductive MetricKey where
  | codeSwitch
  | colloquialness
  | emotionalIntelligence
  | sopAdherence
deriving DecidableEq

/-- Read one metric field of a Rating. -/
def getField (r : Rating) : MetricKey → Int
  | .codeSwitch => r.codeSwitch
  | .colloquialness => r.colloquialness
  | .emotionalIntelligence => r.emotionalIntelligence
  | .sopAdherence => r.sopAdherence

/-- Write one metric field of a Rating, leaving the others alone. -/
def setMetric (r : Rating) : MetricKey → Int → Rating
  | .codeSwitch, v => { r with codeSwitch := v }
  | .colloquialness, v => { r with colloquialness := v }
  | .emotionalIntelligence, v => { r with emotionalIntelligence := v }
  | .sopAdherence, v => { r with sopAdherence := v }

/-- ratings[callId]: the per-call map from turn index to Rating. -/
abbrev CallRatings : Type := List (Nat × Rating)

/-- The ratings state: { [callId]: { [turnIndex]: Rating } }. -/
abbrev RatingsMap : Type := List (String × CallRatings)

/-- The read expression used throughout App.jsx:
ratings[callId]?.[idx] || { ...EMPTY_RATING }. -/
def getRating (m : RatingsMap) (cid : String) (idx : Nat) : Rating :=
  (lookupAssoc ((lookupAssoc m cid).getD []) idx).getD EMPTY_RATING

/-- The value argument of handleRatingChange at its two kinds of call
sites: an integer for a metric key, a string for the idealResponse key. -/
inductive FieldUpdate where
  | metric (k : MetricKey) (v : Int)
  | ideal (s : String)
deriving DecidableEq

/-- The updated-record computation in handleRatingChange:
field === "idealResponse" ? value : value || 0 merged over the previous
record. -/
def applyFieldUpdate (r : Rating) : FieldUpdate → Rating
  | .metric k v => setMetric r k (jsOrZero v)
  | .ideal s => { r with idealResponse := s }

/-- handleRatingChange from App.jsx, restricted to its in-memory effect
(the setRatings functional update); the Supabase upsert is a
fire-and-forget side effect that does not touch this state. -/
def handleRatingChange (m : RatingsMap) (cid : String) (idx : Nat)
    (u : FieldUpdate) : RatingsMap :=
  let prevForCall := (lookupAssoc m cid).getD []
  let prevForUtterance := (lookupAssoc prevForCall idx).getD EMPTY_RATING
  let updated := applyFieldUpdate prevForUtterance u
  updateAssoc m cid (updateAssoc prevForCall idx updated)

/-- One row of the remote call_ratings table.  Each column is an Option:
some x models a JS value of the expected typeof, none models null,
absence, or any other type (the code tests typeof before using a column). -/
structure RemoteRow where
  user_id : String
  call_id : Option String
  turn_index : Option Nat
  code_switch : Option Int
  colloquialness : Option Int
  emotional_intelligence : Option Int
  sop_adherence : Option Int
  ideal_response : Option String
deriving DecidableEq

/-- The body of the data.forEach loop in loadSharedRatings (App.jsx):
skip the row when call_id is falsy or turn_index is null, otherwise write
a merged record where each column wins exactly when it has the expected
typeof and the existing value (defaulted through || ) is kept otherwise. -/
def mergeRow (m : RatingsMap) (r : RemoteRow) : RatingsMap :=
  match r.call_id, r.turn_index with
  | some cid, some idx =>
      if cid = "" then m
      else
        let callMap := (lookupAssoc m cid).getD []
        let existing := (lookupAssoc callMap idx).getD EMPTY_RATING
        let merged : Rating :=
          { codeSwitch := r.code_switch.getD (jsOrZero existing.codeSwitch)
            colloquialness := r.colloquialness.getD (jsOrZero existing.colloquialness)
            emotionalIntelligence :=
              r.emotional_intelligence.getD (jsOrZero existing.emotionalIntelligence)
            sopAdherence := r.sop_adherence.getD (jsOrZero existing.sopAdherence)
            idealResponse := r.ideal_response.getD (jsOrEmpty existing.idealResponse) }
        updateAssoc m cid (updateAssoc callMap idx merged)
  | _, _ => m

/-- loadSharedRatings from App.jsx: the setRatings functional update that
folds every fetched row into the current ratings state. -/
def loadSharedRatings (cache : RatingsMap) (rows : List RemoteRow) : RatingsMap :=
  rows.foldl mergeRow cache

/-- USER_ID from App.jsx. -/
def USER_ID : String := "demo-user"

/-- The Supabase query in loadSharedRatings:
from("call_ratings").select("*").eq("user_id", USER_ID), modelled over a
table state given as a list of rows. -/
def fetchRatings (table : List RemoteRow) : List RemoteRow :=
  table.filter (fun r => r.user_id == USER_ID)

/-- The whole startup remote load: fetch the reviewer's rows and merge
them into the current ratings state. -/
def startupLoad (cache : RatingsMap) (table : List RemoteRow) : RatingsMap :=
  loadSharedRatings cache (fetchRatings table)

theorem mergeRow_getRating_self (m : RatingsMap) (cid : String) (idx : Nat)
    (row : RemoteRow) (h1 : row.call_id = some cid)
    (h2 : row.turn_index = some idx) (h3 : cid ≠ "") :
    getRating (mergeRow m row) cid idx =
      { codeSwitch := row.code_switch.getD (getRating m cid idx).codeSwitch
        colloquialness := row.colloquialness.getD (getRating m cid idx).colloquialness
        emotionalIntelligence :=
          row.emotional_intelligence.getD (getRating m cid idx).emotionalIntelligence
        sopAdherence := row.sop_adherence.getD (getRating m cid idx).sopAdherence
        idealResponse := row.ideal_response.getD (getRating m cid idx).idealResponse } := by
  unfold mergeRow
  rw [h1, h2]
  simp only [h3, if_false]
  simp [getRating, lookupAssoc_updateAssoc_self, jsOrZero_eq, jsOrEmpty_eq]

/-- The additive rating fields put onto an annotated turn by
buildAnnotatedCalls. -/
structure RatingFields where
  rating_code_switch : Int
  rating_colloquialness : Int
  rating_emotional_intelligence : Int
  rating_sop_adherence : Int
  rating_ideal_response : String
deriving DecidableEq

/-- One turn of a dialogue.  The transcript source provides author and
text; ratingFields models the additive rating_* keys an annotated turn
carries (none on un-annotated turns), so that the export builder can be
re-run on its own output. -/
structure Turn where
  author : String
  text : String
  ratingFields : Option RatingFields
deriving DecidableEq

/-- One call of the transcript: call_id plus its ordered dialogue. -/
structure Call where
  call_id : String
  dialogue : List Turn
deriving DecidableEq

/-- The hasAnyRating test inside buildAnnotatedCalls: some metric truthy,
or the ideal response nonempty after trimming. -/
def hasAnyRating (r : Rating) : Bool :=
  (r.codeSwitch != 0) || (r.colloquialness != 0) ||
    (r.emotionalIntelligence != 0) || (r.sopAdherence != 0) ||
    decide (0 < (jsOrEmpty r.idealResponse).trim.length)

/-- The spec's 4.1 isEmpty: every metric 0 and text empty after trimming
whitespace. -/
def isEmptyRating (r : Rating) : Bool :=
  (r.codeSwitch == 0) && (r.colloquialness == 0) &&
    (r.emotionalIntelligence == 0) && (r.sopAdherence == 0) &&
    (r.idealResponse.trim.length == 0)

/-- The per-turn body of the dialogue.map in buildAnnotatedCalls (App.jsx):
an Assistant turn with a present, non-empty rating gets the rating_*
fields spread onto it; every other turn is returned unchanged. -/
def annotateTurn (cr : CallRatings) (idx : Nat) (utt : Turn) : Turn :=
  match lookupAssoc cr idx with
  | some rating =>
      if utt.author = "Assistant" then
        if hasAnyRating rating then
          { utt with
              ratingFields := some
                { rating_code_switch := jsOrZero rating.codeSwitch
                  rating_colloquialness := jsOrZero rating.colloquialness
                  rating_emotional_intelligence := jsOrZero rating.emotionalIntelligence
                  rating_sop_adherence := jsOrZero rating.sopAdherence
                  rating_ideal_response := jsOrEmpty rating.idealResponse } }
        else utt
      else utt
  | none => utt

/-- dialogue.map((utt, idx) => ...) with its running index made explicit. -/
def annotateDialogue (cr : CallRatings) : Nat → List Turn → List Turn
  | _, [] => []
  | i, u :: t => annotateTurn cr i u :: annotateDialogue cr (i + 1) t

/-- The per-call body of calls.map in buildAnnotatedCalls. -/
def buildAnnotatedCall (ratings : RatingsMap) (call : Call) : Call :=
  { call_id := call.call_id
    dialogue := annotateDialogue ((lookupAssoc ratings call.call_id).getD []) 0 call.dialogue }

/-- buildAnnotatedCalls from App.jsx. -/
def buildAnnotatedCalls (calls : List Call) (ratings : RatingsMap) : List Call :=
  calls.map (buildAnnotatedCall ratings)

/-- handleExportAnnotatedTranscriptCurrent from App.jsx, as the document
it downloads: none when no call is selected or the selected call is
missing from the annotated output, otherwise the entry found in the full
annotated export. -/
def handleExportAnnotatedTranscriptCurrent (calls : List Call)
    (ratings : RatingsMap) (selectedCallId : String) : Option Call :=
  match calls.find? (fun c => c.call_id == selectedCallId) with
  | none => none
  | some selectedCall =>
      (buildAnnotatedCalls calls ratings).find? (fun c => c.call_id == selectedCall.call_id)

/-- The completedCalls state: { [callId]: boolean }. -/
abbrev CompletedMap : Type := List (String × Bool)

/-- toggleCallCompleted from App.jsx:
setCompletedCalls(prev to spread with [callId]: !prev[callId]). -/
def toggleCallCompleted (m : CompletedMap) (cid : String) : CompletedMap :=
  updateAssoc m cid (!((lookupAssoc m cid).getD false))

/-- The completion test used by the UI: !!completedCalls[callId]. -/
def isCompleted (m : CompletedMap) (cid : String) : Bool :=
  (lookupAssoc m cid).getD false

/-- A parsed JSON value, for the localStorage slot contents. -/
inductive Json where
  | null
  | bool (b : Bool)
  | num (n : Int)
  | str (s : String)
  | arr (xs : List Json)
  | obj (fields : List (String × Json))

/-- The state of the ratings localStorage slot: absent covers a missing
slot and a falsy raw string, corrupt covers a raw string JSON.parse
throws on, parsed j covers a raw string parsing to j. -/
inductive CacheSlot where
  | absent
  | corrupt
  | parsed (j : Json)

/-- The initial useState value of the ratings collection, as a JSON
value. -/
def emptyRatingsJson : Json := Json.obj []

/-- The guard parsed && typeof parsed === "object" in the localStorage
load effect: typeof gives "object" for objects, arrays and null, and null
is the only falsy one of those. -/
def isTruthyObject : Json → Bool
  | .obj _ => true
  | .arr _ => true
  | _ => false

/-- The ratings localStorage load effect of App.jsx (lines 64-76), as the
ratings value it leaves installed: the parsed value when the guard
passes, the untouched initial empty collection otherwise (including when
JSON.parse throws, which the try/catch swallows). -/
def loadRatings : CacheSlot → Json
  | .absent => emptyRatingsJson
  | .corrupt => emptyRatingsJson
  | .parsed j => if isTruthyObject j then j else emptyRatingsJson

/-- Modelled from the spec: the shape of one serialized Rating record,
a mapping with a string under the ideal-response key and numbers under
the metric keys. -/
def isRatingShape : Json → Bool
  | .obj fs =>
      fs.all (fun f =>
        if f.1 = "idealResponse" then
          match f.2 with
          | .str _ => true
          | _ => false
        else
          match f.2 with
          | .num _ => true
          | _ => false)
  | _ => false

/-- Modelled from the spec: a well-formed serialized turn map,
turnPosition to Rating record. -/
def isTurnMapShape : Json → Bool
  | .obj fs => fs.all (fun f => isRatingShape f.2)
  | _ => false

/-- Modelled from the spec (section 6): a well-formed serialized Rating
Collection, callId to turnPosition to Rating record. -/
def wellFormedMapping : Json → Bool
  | .obj fs => fs.all (fun f => isTurnMapShape f.2)
  | _ => false

theorem getRating_handleRatingChange_self (m : RatingsMap) (cid : String)
    (idx : Nat) (u : FieldUpdate) :
    getRating (handleRatingChange m cid idx u) cid idx =
      applyFieldUpdate (getRating m cid idx) u := by
  simp [handleRatingChange, getRating, lookupAssoc_updateAssoc_self]

theorem getRating_handleRatingChange_ne_idx (m : RatingsMap) (cid : String)
    (idx idx2 : Nat) (u : FieldUpdate) (h : idx2 ≠ idx) :
    getRating (handleRatingChange m cid idx u) cid idx2 = getRating m cid idx2 := by
  simp [handleRatingChange, getRating, lookupAssoc_updateAssoc_self,
    lookupAssoc_updateAssoc_ne _ _ _ _ h]

theorem getRating_handleRatingChange_ne_cid (m : RatingsMap) (cid cid2 : String)
    (idx i : Nat) (u : FieldUpdate) (h : cid2 ≠ cid) :
    getRating (handleRatingChange m cid idx u) cid2 i = getRating m cid2 i := by
  simp [handleRatingChange, getRating, lookupAssoc_updateAssoc_ne _ _ _ _ h]

theorem getField_setMetric_self (r : Rating) (k : MetricKey) (v : Int) :
    getField (setMetric r k v) k = v := by
  cases k <;> rfl

theorem getField_setMetric_ne (r : Rating) (k k2 : MetricKey) (v : Int)
    (h : k2 ≠ k) : getField (setMetric r k v) k2 = getField r k2 := by
  cases k <;> cases k2 <;> first | rfl | exact absurd rfl h

theorem idealResponse_setMetric (r : Rating) (k : MetricKey) (v : Int) :
    (setMetric r k v).idealResponse = r.idealResponse := by
  cases k <;> rfl

theorem decide_pos_eq_not_beq_zero (n : Nat) : decide (0 < n) = !(n == 0) := by
  cases n <;> simp

theorem hasAnyRating_eq_not_isEmpty (r : Rating) :
    hasAnyRating r = !(isEmptyRating r) := by
  simp only [hasAnyRating, isEmptyRating, jsOrEmpty_eq, bne,
    decide_pos_eq_not_beq_zero, Bool.not_and]

theorem annotateTurn_author (cr : CallRatings) (idx : Nat) (utt : Turn) :
    (annotateTurn cr idx utt).author = utt.author := by
  unfold annotateTurn
  cases lookupAssoc cr idx with
  | none => rfl
  | some r =>
      by_cases ha : utt.author = "Assistant" <;>
        by_cases hr : hasAnyRating r <;> simp [ha, hr]

theorem annotateTurn_idem (cr : CallRatings) (idx : Nat) (utt : Turn) :
    annotateTurn cr idx (annotateTurn cr idx utt) = annotateTurn cr idx utt := by
  unfold annotateTurn
  cases lookupAssoc cr idx with
  | none => rfl
  | some r =>
      by_cases ha : utt.author = "Assistant" <;>
        by_cases hr : hasAnyRating r <;> simp [ha, hr]

theorem annotateDialogue_length (cr : CallRatings) :
    ∀ (l : List Turn) (i : Nat), (annotateDialogue cr i l).length = l.length := by
  intro l
  induction l with
  | nil => intro i; rfl
  | cons u t ih => intro i; simp [annotateDialogue, ih]

theorem annotateDialogue_get? (cr : CallRatings) :
    ∀ (l : List Turn) (i j : Nat),
      (annotateDialogue cr i l).get? j = (l.get? j).map (annotateTurn cr (i + j)) := by
  intro l
  induction l with
  | nil => intro i j; simp [annotateDialogue]
  | cons u t ih =>
      intro i j
      cases j with
      | zero => simp [annotateDialogue]
      | succ j =>
          have harith : i + 1 + j = i + (j + 1) := by omega
          calc (annotateDialogue cr i (u :: t)).get? (j + 1)
              = (annotateDialogue cr (i + 1) t).get? j := rfl
            _ = (t.get? j).map (annotateTurn cr (i + 1 + j)) := ih (i + 1) j
            _ = (t.get? j).map (annotateTurn cr (i + (j + 1))) := by rw [harith]
            _ = ((u :: t).get? (j + 1)).map (annotateTurn cr (i + (j + 1))) := rfl

theorem annotateDialogue_idem (cr : CallRatings) :
    ∀ (l : List Turn) (i : Nat),
      annotateDialogue cr i (annotateDialogue cr i l) = annotateDialogue cr i l := by
  intro l
  induction l with
  | nil => intro i; rfl
  | cons u t ih => intro i; simp [annotateDialogue, annotateTurn_idem, ih]

theorem buildAnnotatedCall_idem (R : RatingsMap) (c : Call) :
    buildAnnotatedCall R (buildAnnotatedCall R c) = buildAnnotatedCall R c := by
  simp [buildAnnotatedCall, annotateDialogue_idem]

theorem find?_map_buildAnnotatedCall (R : RatingsMap) (cid : String) :
    ∀ (calls : List Call),
      (calls.map (buildAnnotatedCall R)).find? (fun c => c.call_id == cid) =
        (calls.find? (fun c => c.call_id == cid)).map (buildAnnotatedCall R) := by
  intro calls
  induction calls with
  | nil => rfl
  | cons c t ih =>
      have hid : (buildAnnotatedCall R c).call_id = c.call_id := rfl
      cases h : (c.call_id == cid) <;>
        simp [List.find?, hid, h, ih]

/-- The remote column of the call_ratings table carrying a given metric
key, following the column mapping in loadSharedRatings. -/
def metricColumn (row : RemoteRow) : MetricKey → Option Int
  | .codeSwitch => row.code_switch
  | .colloquialness => row.colloquialness
  | .emotionalIntelligence => row.emotional_intelligence
  | .sopAdherence => row.sop_adherence

/-- C5 counterexample: the claim says a metric value above the upper
bound is stored as the upper bound 5; handleRatingChange at value 9
stores 9, not 5, so no clamping happens. -/
theorem clamping_counterexample :
    getField (getRating (handleRatingChange [] "c" 0
        (FieldUpdate.metric MetricKey.codeSwitch 9)) "c" 0) MetricKey.codeSwitch = 9 ∧
    getField (getRating (handleRatingChange [] "c" 0
        (FieldUpdate.metric MetricKey.codeSwitch 9)) "c" 0) MetricKey.codeSwitch ≠ 5 := by
  exact ⟨rfl, by decide⟩

/-- C5 (amended): handleRatingChange performs no range validation at all:
for every integer value, in range or not, the value is stored as-is (the
only coercion is the JS falsy-to-zero default, the identity on integers);
nothing is clamped and nothing is rejected. -/
theorem handleRatingChange_stores_value_unclamped (m : RatingsMap) (cid : String)
    (idx : Nat) (k : MetricKey) (v : Int) :
    getField (getRating (handleRatingChange m cid idx (FieldUpdate.metric k v)) cid idx) k = v := by
  rw [getRating_handleRatingChange_self]
  simp [applyFieldUpdate, getField_setMetric_self, jsOrZero_eq]

/-- C6: after handleRatingChange on (callId, turnIndex, field, value) the
Rating read back reflects the value in that field, while every other
field of that Rating, every other turn of that call, and every other
call are unchanged. -/
theorem handleRatingChange_frame (m : RatingsMap) (cid : String) (idx : Nat)
    (k : MetricKey) (v : Int) (s : String) :
    getField (getRating (handleRatingChange m cid idx (FieldUpdate.metric k v)) cid idx) k = v ∧
    (getRating (handleRatingChange m cid idx (FieldUpdate.metric k v)) cid idx).idealResponse =
      (getRating m cid idx).idealResponse ∧
    (∀ k2, k2 ≠ k →
      getField (getRating (handleRatingChange m cid idx (FieldUpdate.metric k v)) cid idx) k2 =
        getField (getRating m cid idx) k2) ∧
    (getRating (handleRatingChange m cid idx (FieldUpdate.ideal s)) cid idx).idealResponse = s ∧
    (∀ k2, getField (getRating (handleRatingChange m cid idx (FieldUpdate.ideal s)) cid idx) k2 =
      getField (getRating m cid idx) k2) ∧
    (∀ u : FieldUpdate, ∀ idx2, idx2 ≠ idx →
      getRating (handleRatingChange m cid idx u) cid idx2 = getRating m cid idx2) ∧
    (∀ u : FieldUpdate, ∀ cid2, cid2 ≠ cid → ∀ i,
      getRating (handleRatingChange m cid idx u) cid2 i = getRating m cid2 i) := by
  refine ⟨?_, ?_, ?_, ?_, ?_, ?_, ?_⟩
  · rw [getRating_handleRatingChange_self]
    simp [applyFieldUpdate, getField_setMetric_self, jsOrZero_eq]
  · rw [getRating_handleRatingChange_self]
    simp [applyFieldUpdate, idealResponse_setMetric]
  · intro k2 h
    rw [getRating_handleRatingChange_self]
    simp [applyFieldUpdate, getField_setMetric_ne _ _ _ _ h]
  · rw [getRating_handleRatingChange_self]
    simp [applyFieldUpdate]
  · intro k2
    rw [getRating_handleRatingChange_self]
    cases k2 <;> simp [applyFieldUpdate, getField]
  · intro u idx2 h
    exact getRating_handleRatingChange_ne_idx m cid idx idx2 u h
  · intro u cid2 h i
    exact getRating_handleRatingChange_ne_cid m cid cid2 idx i u h

/-- C6 witness: the frame property evaluated at a concrete edit. -/
theorem handleRatingChange_frame_witness :
    getField (getRating (handleRatingChange [] "c" 0
        (FieldUpdate.metric MetricKey.codeSwitch 4)) "c" 0) MetricKey.codeSwitch = 4 ∧
    getRating (handleRatingChange [] "c" 0
        (FieldUpdate.metric MetricKey.codeSwitch 4)) "c" 1 = getRating [] "c" 1 ∧
    getRating (handleRatingChange [] "c" 0
        (FieldUpdate.metric MetricKey.codeSwitch 4)) "d" 0 = getRating [] "d" 0 := by
  have h := handleRatingChange_frame [] "c" 0 MetricKey.codeSwitch 4 ""
  exact ⟨h.1,
    h.2.2.2.2.2.1 (FieldUpdate.metric MetricKey.codeSwitch 4) 1 (by decide),
    h.2.2.2.2.2.2 (FieldUpdate.metric MetricKey.codeSwitch 4) "d" (by decide) 0⟩

/-- C7: the startup fetch-and-merge is unaffected by any table row whose
user id differs from the fixed reviewer identity USER_ID: deleting such a
row from the remote table state leaves the resulting ratings collection
unchanged. -/
theorem startupLoad_filters_by_identity (cache : RatingsMap)
    (t1 t2 : List RemoteRow) (r : RemoteRow) (h : r.user_id ≠ USER_ID) :
    startupLoad cache (t1 ++ r :: t2) = startupLoad cache (t1 ++ t2) := by
  have hb : (r.user_id == USER_ID) = false := by simp [h]
  simp [startupLoad, fetchRatings, List.filter_append, List.filter_cons, hb]

/-- A concrete remote row belonging to a different reviewer, for the C7
witness. -/
def otherUserRow : RemoteRow :=
  { user_id := "other-user"
    call_id := some "c"
    turn_index := some 0
    code_switch := some 5
    colloquialness := none
    emotional_intelligence := none
    sop_adherence := none
    ideal_response := none }

/-- C7 witness: a row for another user is dropped by the filtered fetch. -/
theorem startupLoad_filters_by_identity_witness :
    otherUserRow.user_id ≠ USER_ID ∧
    startupLoad [] ([] ++ otherUserRow :: []) = startupLoad [] ([] ++ []) := by
  exact ⟨by decide, startupLoad_filters_by_identity [] [] [] otherUserRow (by decide)⟩

/-- C9 counterexample: a cache slot parsing to the array [1] is not a
well-formed rating mapping, yet the load effect installs it instead of
leaving the empty collection: the objectness guard is shallow
(typeof parsed, truthiness) and accepts arrays. -/
theorem loadRatings_wellformed_counterexample :
    wellFormedMapping (Json.arr [Json.num 1]) = false ∧
    loadRatings (CacheSlot.parsed (Json.arr [Json.num 1])) = Json.arr [Json.num 1] ∧
    loadRatings (CacheSlot.parsed (Json.arr [Json.num 1])) ≠ emptyRatingsJson := by
  refine ⟨rfl, rfl, ?_⟩
  intro h
  rw [show loadRatings (CacheSlot.parsed (Json.arr [Json.num 1])) =
      Json.arr [Json.num 1] from rfl] at h
  rw [show emptyRatingsJson = Json.obj [] from rfl] at h
  exact Json.noConfusion h

/-- C9 (amended): the load effect never propagates an error: an absent
slot, an unparseable slot, and a slot parsing to null or a primitive all
leave the collection empty; but the well-formedness check is only the
shallow truthy-object guard, so any parsed object or array, well-formed
mapping or not, is installed as-is. -/
theorem loadRatings_degrades_to_empty (j : Json) :
    loadRatings CacheSlot.absent = emptyRatingsJson ∧
    loadRatings CacheSlot.corrupt = emptyRatingsJson ∧
    (isTruthyObject j = false → loadRatings (CacheSlot.parsed j) = emptyRatingsJson) ∧
    (isTruthyObject j = true → loadRatings (CacheSlot.parsed j) = j) := by
  refine ⟨rfl, rfl, ?_, ?_⟩ <;> intro h <;> simp [loadRatings, h]

/-- C9 witness: a slot parsing to the number 5 degrades to the empty
collection. -/
theorem loadRatings_degrades_to_empty_witness :
    isTruthyObject (Json.num 5) = false ∧
    loadRatings (CacheSlot.parsed (Json.num 5)) = emptyRatingsJson := by
  exact ⟨rfl, (loadRatings_degrades_to_empty (Json.num 5)).2.2.1 rfl⟩

/-- C10: toggling a call's completion flag inverts that call's observed
status (unset becomes true, true becomes false), leaves every other
call's stored entry unchanged, and toggling twice restores the original
observed status of every call. -/
theorem toggleCallCompleted_spec (m : CompletedMap) (cid : String) :
    isCompleted (toggleCallCompleted m cid) cid = !(isCompleted m cid) ∧
    (∀ cid2, cid2 ≠ cid →
      lookupAssoc (toggleCallCompleted m cid) cid2 = lookupAssoc m cid2) ∧
    (∀ cid2, isCompleted (toggleCallCompleted (toggleCallCompleted m cid) cid) cid2 =
      isCompleted m cid2) := by
  refine ⟨?_, ?_, ?_⟩
  · simp [isCompleted, toggleCallCompleted, lookupAssoc_updateAssoc_self]
  · intro cid2 h
    simp [toggleCallCompleted, lookupAssoc_updateAssoc_ne _ _ _ _ h]
  · intro cid2
    by_cases h : cid2 = cid
    · subst h
      simp [isCompleted, toggleCallCompleted, lookupAssoc_updateAssoc_self]
    · simp [isCompleted, toggleCallCompleted, lookupAssoc_updateAssoc_ne _ _ _ _ h]

/-- C10 witness: the toggle properties at a concrete map. -/
theorem toggleCallCompleted_spec_witness :
    isCompleted (toggleCallCompleted [] "c") "c" = !(isCompleted ([] : CompletedMap) "c") ∧
    lookupAssoc (toggleCallCompleted [] "c") "d" = lookupAssoc ([] : CompletedMap) "d" ∧
    isCompleted (toggleCallCompleted (toggleCallCompleted [] "c") "c") "c" =
      isCompleted ([] : CompletedMap) "c" := by
  have h := toggleCallCompleted_spec [] "c"
  exact ⟨h.1, h.2.1 "d" (by decide), h.2.2 "c"⟩

/-- A cached rating of 3 on codeSwitch for call "c", turn 0, for the C1
counterexample. -/
def cachedThree : RatingsMap :=
  [("c", [(0, { codeSwitch := 3
                colloquialness := 0
                emotionalIntelligence := 0
                sopAdherence := 0
                idealResponse := "" })])]

/-- A remote row carrying the out-of-range codeSwitch value 9 for call
"c", turn 0. -/
def remoteNineRow : RemoteRow :=
  { user_id := "demo-user"
    call_id := some "c"
    turn_index := some 0
    code_switch := some 9
    colloquialness := none
    emotional_intelligence := none
    sop_adherence := none
    ideal_response := none }

/-- C1 counterexample: with a cache value of 3 and a remote row carrying
the out-of-range value 9, the merge adopts 9 and discards 3 — the claim
says 9 is never adopted and 3 is kept. -/
theorem loadSharedRatings_range_counterexample :
    getField (getRating (loadSharedRatings cachedThree [remoteNineRow]) "c" 0)
        MetricKey.codeSwitch = 9 ∧
    ¬ ((9 : Int) ≤ 5) ∧
    getField (getRating (loadSharedRatings cachedThree [remoteNineRow]) "c" 0)
        MetricKey.codeSwitch ≠ 3 := by
  exact ⟨rfl, by decide, by decide⟩

/-- C1 (amended): initialize starts from the cache snapshot and merges
each remote row field-by-field into the matching (call id, turn position)
entry, but for each field the remote value is adopted exactly when it has
the expected JS type (number for metrics, string for the ideal response),
with no range check at all; the cache-derived value is kept only when the
remote column does not have that type. -/
theorem loadSharedRatings_adopts_typed_remote (cache : RatingsMap) (cid : String)
    (idx : Nat) (row : RemoteRow) (h1 : row.call_id = some cid)
    (h2 : row.turn_index = some idx) (h3 : cid ≠ "") :
    getRating (loadSharedRatings cache [row]) cid idx =
      { codeSwitch := row.code_switch.getD (getRating cache cid idx).codeSwitch
        colloquialness := row.colloquialness.getD (getRating cache cid idx).colloquialness
        emotionalIntelligence :=
          row.emotional_intelligence.getD (getRating cache cid idx).emotionalIntelligence
        sopAdherence := row.sop_adherence.getD (getRating cache cid idx).sopAdherence
        idealResponse := row.ideal_response.getD (getRating cache cid idx).idealResponse } := by
  have hfold : loadSharedRatings cache [row] = mergeRow cache row := rfl
  rw [hfold]
  exact mergeRow_getRating_self cache cid idx row h1 h2 h3

/-- C1 witness: the field-level merge evaluated on the concrete cache and
the concrete remote row of the counterexample. -/
theorem loadSharedRatings_adopts_typed_remote_witness :
    getRating (loadSharedRatings cachedThree [remoteNineRow]) "c" 0 =
      { codeSwitch := remoteNineRow.code_switch.getD
          (getRating cachedThree "c" 0).codeSwitch
        colloquialness := remoteNineRow.colloquialness.getD
          (getRating cachedThree "c" 0).colloquialness
        emotionalIntelligence := remoteNineRow.emotional_intelligence.getD
          (getRating cachedThree "c" 0).emotionalIntelligence
        sopAdherence := remoteNineRow.sop_adherence.getD
          (getRating cachedThree "c" 0).sopAdherence
        idealResponse := remoteNineRow.ideal_response.getD
          (getRating cachedThree "c" 0).idealResponse } := by
  exact loadSharedRatings_adopts_typed_remote cachedThree "c" 0 remoteNineRow
    rfl rfl (by decide)

/-- A remote row carrying codeSwitch 5 for call "c", turn 0, modelling a
stale remote snapshot arriving after a local edit. -/
def remoteFiveRow : RemoteRow :=
  { user_id := "demo-user"
    call_id := some "c"
    turn_index := some 0
    code_switch := some 5
    colloquialness := none
    emotional_intelligence := none
    sop_adherence := none
    ideal_response := none }

/-- C2 counterexample: a local edit sets codeSwitch to 4, then the remote
merge carrying 5 for the same (call, turn) is applied; the stored value
ends up 5, not 4 — the remote snapshot overwrites the local edit. -/
theorem localEditWins_counterexample :
    getField (getRating (loadSharedRatings
        (handleRatingChange [] "c" 0 (FieldUpdate.metric MetricKey.codeSwitch 4))
        [remoteFiveRow]) "c" 0) MetricKey.codeSwitch = 5 ∧
    getField (getRating (loadSharedRatings
        (handleRatingChange [] "c" 0 (FieldUpdate.metric MetricKey.codeSwitch 4))
        [remoteFiveRow]) "c" 0) MetricKey.codeSwitch ≠ 4 := by
  exact ⟨rfl, by decide⟩

/-- C2 (amended): no per-field local-edit tracking exists: a remote merge
applied after a local setField overwrites the locally edited field
whenever the remote column carries a number, so the final value is the
remote one, not the local edit. -/
theorem remoteMerge_overwrites_local_edit (m : RatingsMap) (cid : String)
    (idx : Nat) (k : MetricKey) (v : Int) (row : RemoteRow) (w : Int)
    (h1 : row.call_id = some cid) (h2 : row.turn_index = some idx)
    (h3 : cid ≠ "") (h4 : metricColumn row k = some w) :
    getField (getRating (loadSharedRatings
        (handleRatingChange m cid idx (FieldUpdate.metric k v)) [row]) cid idx) k = w := by
  have hfold : loadSharedRatings (handleRatingChange m cid idx (FieldUpdate.metric k v)) [row] =
      mergeRow (handleRatingChange m cid idx (FieldUpdate.metric k v)) row := rfl
  rw [hfold, mergeRow_getRating_self _ cid idx row h1 h2 h3]
  cases k <;> simp_all [metricColumn, getField]

/-- C2 witness: the overwrite evaluated at the concrete edit-then-merge
sequence of the counterexample. -/
theorem remoteMerge_overwrites_local_edit_witness :
    getField (getRating (loadSharedRatings
        (handleRatingChange [] "c" 0 (FieldUpdate.metric MetricKey.codeSwitch 4))
        [remoteFiveRow]) "c" 0) MetricKey.codeSwitch = 5 := by
  exact remoteMerge_overwrites_local_edit [] "c" 0 MetricKey.codeSwitch 4
    remoteFiveRow 5 rfl rfl (by decide) rfl

/-- C4: buildAnnotatedCalls is idempotent: re-running it on its own
output with the same rating collection yields the same annotated result,
with no duplicated or re-prefixed fields and no shape drift.  Purity and
non-mutation of the inputs are inherent in the functional embedding: the
function constructs a new list and its arguments are immutable values. -/
theorem buildAnnotatedCalls_idempotent (calls : List Call) (R : RatingsMap) :
    buildAnnotatedCalls (buildAnnotatedCalls calls R) R = buildAnnotatedCalls calls R := by
  unfold buildAnnotatedCalls
  rw [List.map_map]
  induction calls with
  | nil => rfl
  | cons c t ih =>
      simp only [List.map_cons, Function.comp_apply, buildAnnotatedCall_idem]
      rw [List.cons.injEq]
      exact ⟨rfl, ih⟩

/-- C8: whenever the selected call id is present in the transcript, the
single-call export is exactly the corresponding entry of the full
all-calls export, namely the annotated form of the (first) call bearing
that id. -/
theorem exportCurrent_agrees_with_full_export (calls : List Call) (R : RatingsMap)
    (cid : String) (call : Call)
    (h : calls.find? (fun c => c.call_id == cid) = some call) :
    handleExportAnnotatedTranscriptCurrent calls R cid = some (buildAnnotatedCall R call) ∧
    (buildAnnotatedCalls calls R).find? (fun c => c.call_id == cid) =
      some (buildAnnotatedCall R call) := by
  have hp := List.find?_some h
  have hcid : call.call_id = cid := by simpa using hp
  have hfull : (buildAnnotatedCalls calls R).find? (fun c => c.call_id == cid) =
      some (buildAnnotatedCall R call) := by
    unfold buildAnnotatedCalls
    rw [find?_map_buildAnnotatedCall, h]
    rfl
  refine ⟨?_, hfull⟩
  have hsel : handleExportAnnotatedTranscriptCurrent calls R cid =
      (buildAnnotatedCalls calls R).find? (fun c => c.call_id == call.call_id) := by
    unfold handleExportAnnotatedTranscriptCurrent
    rw [h]
  rw [hsel, hcid]
  exact hfull

/-- C8 witness: the single-call export of a one-call transcript equals
the full export's entry. -/
theorem exportCurrent_agrees_with_full_export_witness :
    handleExportAnnotatedTranscriptCurrent [⟨"c", []⟩] [] "c" =
      some (buildAnnotatedCall [] ⟨"c", []⟩) := by
  exact (exportCurrent_agrees_with_full_export [⟨"c", []⟩] [] "c" ⟨"c", []⟩ rfl).1

theorem get?_map_pointwise {α β : Type} (f : α → β) :
    ∀ (l : List α) (i : Nat), (l.map f).get? i = (l.get? i).map f := by
  intro l
  induction l with
  | nil => intro i; cases i <;> rfl
  | cons a t ih =>
      intro i
      cases i with
      | zero => rfl
      | succ j => exact ih j

theorem annotateTurn_hit (cr : CallRatings) (j : Nat) (utt : Turn) (r : Rating)
    (hr : lookupAssoc cr j = some r) (hau : utt.author = "Assistant")
    (hhas : hasAnyRating r = true) :
    annotateTurn cr j utt =
      { utt with
          ratingFields := some
            { rating_code_switch := r.codeSwitch
              rating_colloquialness := r.colloquialness
              rating_emotional_intelligence := r.emotionalIntelligence
              rating_sop_adherence := r.sopAdherence
              rating_ideal_response := r.idealResponse } } := by
  simp [annotateTurn, hr, hau, hhas, jsOrZero_eq, jsOrEmpty_eq]

theorem annotateTurn_miss (cr : CallRatings) (j : Nat) (utt : Turn)
    (hr : lookupAssoc cr j = none) : annotateTurn cr j utt = utt := by
  simp [annotateTurn, hr]

theorem annotateTurn_notAssistant (cr : CallRatings) (j : Nat) (utt : Turn)
    (hau : utt.author ≠ "Assistant") : annotateTurn cr j utt = utt := by
  unfold annotateTurn
  cases lookupAssoc cr j <;> simp [hau]

theorem annotateTurn_emptyRating (cr : CallRatings) (j : Nat) (utt : Turn)
    (r : Rating) (hr : lookupAssoc cr j = some r)
    (hhas : hasAnyRating r = false) : annotateTurn cr j utt = utt := by
  simp [annotateTurn, hr, hhas]

/-- C3: buildAnnotatedCalls keeps call order, turn order and lengths
exactly, and a turn gets the additive rating fields (one per metric, even
when 0, plus the ideal-response text) exactly when its author is
Assistant and a non-empty Rating is stored for its (call id, position);
in every other case — no stored Rating, non-Assistant author, or a stored
but empty Rating (all metrics 0, trimmed text empty) — the turn is
emitted unchanged. -/
theorem buildAnnotatedCalls_spec (calls : List Call) (R : RatingsMap) :
    (buildAnnotatedCalls calls R).length = calls.length ∧
    ∀ (i : Nat) (call call2 : Call),
      calls.get? i = some call →
      (buildAnnotatedCalls calls R).get? i = some call2 →
      call2.call_id = call.call_id ∧
      call2.dialogue.length = call.dialogue.length ∧
      ∀ (j : Nat) (utt : Turn), call.dialogue.get? j = some utt →
        (∀ r : Rating,
          lookupAssoc ((lookupAssoc R call.call_id).getD []) j = some r →
          utt.author = "Assistant" →
          isEmptyRating r = false →
          call2.dialogue.get? j = some
            { utt with
                ratingFields := some
                  { rating_code_switch := r.codeSwitch
                    rating_colloquialness := r.colloquialness
                    rating_emotional_intelligence := r.emotionalIntelligence
                    rating_sop_adherence := r.sopAdherence
                    rating_ideal_response := r.idealResponse } }) ∧
        (lookupAssoc ((lookupAssoc R call.call_id).getD []) j = none →
          call2.dialogue.get? j = some utt) ∧
        (utt.author ≠ "Assistant" → call2.dialogue.get? j = some utt) ∧
        (∀ r : Rating,
          lookupAssoc ((lookupAssoc R call.call_id).getD []) j = some r →
          isEmptyRating r = true →
          call2.dialogue.get? j = some utt) := by
  constructor
  · simp [buildAnnotatedCalls]
  · intro i call call2 h1 h2
    have hmap : (calls.map (buildAnnotatedCall R)).get? i =
        (calls.get? i).map (buildAnnotatedCall R) := get?_map_pointwise _ _ _
    unfold buildAnnotatedCalls at h2
    rw [hmap, h1] at h2
    have hc2 : call2 = buildAnnotatedCall R call := by
      injection h2 with h2e
      exact h2e.symm
    subst hc2
    refine ⟨rfl, ?_, ?_⟩
    · simp [buildAnnotatedCall, annotateDialogue_length]
    · intro j utt hj
      have hget : (buildAnnotatedCall R call).dialogue.get? j =
          some (annotateTurn ((lookupAssoc R call.call_id).getD []) j utt) := by
        show (annotateDialogue ((lookupAssoc R call.call_id).getD []) 0 call.dialogue).get? j = _
        rw [annotateDialogue_get?, hj]
        simp
      refine ⟨?_, ?_, ?_, ?_⟩
      · intro r hr hau hemp
        have hhas : hasAnyRating r = true := by
          rw [hasAnyRating_eq_not_isEmpty, hemp]
          rfl
        rw [hget, annotateTurn_hit _ _ _ _ hr hau hhas]
      · intro hr
        rw [hget, annotateTurn_miss _ _ _ hr]
      · intro hau
        rw [hget, annotateTurn_notAssistant _ _ _ hau]
      · intro r hr hemp
        have hhas : hasAnyRating r = false := by
          rw [hasAnyRating_eq_not_isEmpty, hemp]
          rfl
        rw [hget, annotateTurn_emptyRating _ _ _ _ hr hhas]

/-- A concrete Assistant turn for the C3 witness. -/
def c3Turn : Turn := { author := "Assistant", text := "hi", ratingFields := none }

/-- A concrete non-empty rating for the C3 witness. -/
def c3Rating : Rating :=
  { codeSwitch := 5
    colloquialness := 0
    emotionalIntelligence := 0
    sopAdherence := 0
    idealResponse := "" }

/-- A concrete one-call transcript for the C3 witness. -/
def c3Calls : List Call := [{ call_id := "c", dialogue := [c3Turn] }]

/-- A concrete rating collection for the C3 witness. -/
def c3R : RatingsMap := [("c", [(0, c3Rating)])]

/-- The rating fields carried by the annotated C3 witness turn. -/
def c3Fields : RatingFields :=
  { rating_code_switch := 5
    rating_colloquialness := 0
    rating_emotional_intelligence := 0
    rating_sop_adherence := 0
    rating_ideal_response := "" }

/-- The annotated form of the C3 witness turn. -/
def c3AnnotatedTurn : Turn :=
  { author := "Assistant", text := "hi", ratingFields := some c3Fields }

/-- The annotated form of the C3 witness call. -/
def c3Annotated : Call :=
  { call_id := "c", dialogue := [c3AnnotatedTurn] }

/-- C3 witness: the characterization evaluated on a one-call transcript
with one rated Assistant turn. -/
theorem buildAnnotatedCalls_spec_witness :
    (buildAnnotatedCalls c3Calls c3R).length = 1 ∧
    c3Annotated.dialogue.get? 0 = some c3AnnotatedTurn := by
  have h := buildAnnotatedCalls_spec c3Calls c3R
  have h2 := h.2 0 { call_id := "c", dialogue := [c3Turn] } c3Annotated
    (by decide) (by decide)
  have h3 := (h2.2.2 0 c3Turn (by decide)).1 c3Rating (by decide) (by decide) (by decide)
  exact ⟨h.1, h3⟩
